import Mathlib

/-
  Verification of the invoice tax computation engine and the reporting
  aggregation of this repository.  Monetary values are modelled as exact
  rationals (the boundary convention of the specification); the output
  rounding parseFloat(x.toFixed(2)) is modelled as rounding to the nearest
  multiple of 1/100 with ties toward positive infinity, matching the
  ECMAScript toFixed tie rule, and Math.round as rounding to the nearest
  integer with ties toward positive infinity.
-/

namespace GSTCalc

/-- Rounding of a monetary value to 2 decimal places, as performed by
parseFloat(x.toFixed(2)) on the output fields. -/
def round2 (x : ℚ) : ℚ := ((x * 100 + 1/2).floor : ℤ) / 100

/-- ECMAScript Math.round: nearest integer, ties toward positive infinity. -/
def jsRound (x : ℚ) : ℤ := (x + 1/2).floor

/-- An input line item of calculateInvoiceTotals: quantity, unitPrice and
(optional) gstRate, plus the passenger fields carried through by the object
spread in itemsWithTotals. -/
structure LineItem where
  productName : String := ""
  hsnCode : String := ""
  quantity : ℚ
  unitPrice : ℚ
  gstRate : Option ℚ
deriving DecidableEq

/-- An output line item: the input item spread unchanged, augmented with the
derived itemTotal and itemGST fields. -/
structure TotaledItem where
  base : LineItem
  itemTotal : ℚ
  itemGST : ℚ
deriving DecidableEq

/-- The invoice totals breakdown returned by calculateInvoiceTotals. -/
structure InvoiceTotals where
  items : List TotaledItem
  subtotal : ℚ
  cgst : ℚ
  sgst : ℚ
  igst : ℚ
  totalGST : ℚ
  grandTotal : ℚ
  isSameState : Bool
deriving DecidableEq

/-- calculateGST from src/utils/gstCalculator.js:
(itemTotal * gstRate) / 100, with no input validation. -/
def calculateGST (itemTotal gstRate : ℚ) : ℚ := itemTotal * gstRate / 100

/-- calculateCGSTSGST from src/utils/gstCalculator.js: both halves are
totalGST / 2, unrounded. -/
def calculateCGSTSGST (totalGST : ℚ) : ℚ × ℚ := (totalGST / 2, totalGST / 2)

/-- The items.map step of calculateInvoiceTotals: each item is spread into the
output together with itemTotal = quantity * unitPrice and
itemGST = calculateGST itemTotal (item.gstRate or 0). -/
def itemsWithTotals (items : List LineItem) : List TotaledItem :=
  items.map (fun item =>
    let itemTotal := item.quantity * item.unitPrice
    { base := item
      itemTotal := itemTotal
      itemGST := calculateGST itemTotal (item.gstRate.getD 0) })

/-- The subtotal accumulator of calculateInvoiceTotals (unrounded). -/
def rawSubtotal (items : List LineItem) : ℚ :=
  (itemsWithTotals items).foldl (fun s it => s + it.itemTotal) 0

/-- The totalGST accumulator of calculateInvoiceTotals (unrounded). -/
def rawTotalGST (items : List LineItem) : ℚ :=
  (itemsWithTotals items).foldl (fun s it => s + it.itemGST) 0

/-- JavaScript toLowerCase: lowercase every character of the string. -/
def jsToLower (s : String) : String := String.mk (s.data.map Char.toLower)

/-- The isSameState test: both state strings non-empty (JavaScript truthiness
of a string) and equal after toLowerCase. -/
def isSameState (customerState businessState : String) : Bool :=
  (!(customerState == "")) && (!(businessState == "")) &&
    (jsToLower customerState == jsToLower businessState)

/-- The cgst local of calculateInvoiceTotals before output rounding. -/
def rawCGST (items : List LineItem) (customerState businessState : String) : ℚ :=
  if isSameState customerState businessState then
    (calculateCGSTSGST (rawTotalGST items)).1
  else 0

/-- The sgst local of calculateInvoiceTotals before output rounding. -/
def rawSGST (items : List LineItem) (customerState businessState : String) : ℚ :=
  if isSameState customerState businessState then
    (calculateCGSTSGST (rawTotalGST items)).2
  else 0

/-- The igst local of calculateInvoiceTotals before output rounding. -/
def rawIGST (items : List LineItem) (customerState businessState : String) : ℚ :=
  if isSameState customerState businessState then 0 else rawTotalGST items

/-- The grandTotal local of calculateInvoiceTotals before output rounding. -/
def rawGrandTotal (items : List LineItem) (customerState businessState : String) : ℚ :=
  rawSubtotal items + rawCGST items customerState businessState +
    rawSGST items customerState businessState + rawIGST items customerState businessState

/-- calculateInvoiceTotals from src/utils/gstCalculator.js: accumulate
unrounded subtotal and totalGST over the items, choose the CGST and SGST split
when isSameState and IGST otherwise, form the grand total, and round every
monetary output field to 2 decimals. -/
def calculateInvoiceTotals (items : List LineItem)
    (customerState businessState : String) : InvoiceTotals :=
  { items := itemsWithTotals items
    subtotal := round2 (rawSubtotal items)
    cgst := round2 (rawCGST items customerState businessState)
    sgst := round2 (rawSGST items customerState businessState)
    igst := round2 (rawIGST items customerState businessState)
    totalGST := round2 (rawTotalGST items)
    grandTotal := round2 (rawGrandTotal items customerState businessState)
    isSameState := isSameState customerState businessState }

/-- A line item producing an unrounded total tax of exactly 0.01:
one unit at price 1 with a 1 percent rate. -/
def onePaisaItem : LineItem := { quantity := 1, unitPrice := 1, gstRate := some 1 }

/-- The spec-following checked version of computeLineTax, stated from the
specification's words for comparison with the repository's calculateGST. -/
inductive TaxErr where
  | InvalidInput
deriving DecidableEq

/-- Checked line-tax as the specification words it: fail with InvalidInput when
lineTotal is negative or the rate lies outside the interval from 0 to 100,
otherwise return lineTotal times rate over 100.  This definition follows the
specification, not the source; the source function calculateGST is unchecked. -/
def computeLineTaxSpec (lineTotal taxRatePercent : ℚ) : Except TaxErr ℚ :=
  if lineTotal < 0 ∨ taxRatePercent < 0 ∨ 100 < taxRatePercent then
    Except.error TaxErr.InvalidInput
  else
    Except.ok (lineTotal * taxRatePercent / 100)

/-- The isLowStock flag of the stock-summary report: stock at or below
minStock. -/
def isLowStock (stock minStock : ℚ) : Bool := stock ≤ minStock

/-- The stockStatus ternary of GET /items/stock-summary: isLowStock is tested
first, then stock === 0, then the in-stock default. -/
def stockStatus (stock minStock : ℚ) : String :=
  if isLowStock stock minStock then "Low Stock"
  else if stock = 0 then "Out of Stock"
  else "In Stock"

/-- A product as consulted by the profit-and-loss report: only purchasePrice
matters there; none models a missing field. -/
structure PLProduct where
  purchasePrice : Option ℚ
deriving DecidableEq

/-- A line item of a persisted invoice as read by the profit-and-loss report. -/
structure PLItem where
  productId : ℕ
  quantity : ℚ
deriving DecidableEq

/-- A persisted invoice as read by the profit-and-loss report; grandTotal is
optional, read with the or-zero default of the route. -/
structure PLInvoice where
  grandTotal : Option ℚ
  items : List PLItem
deriving DecidableEq

/-- The profit-and-loss report object of GET /profit-loss. -/
structure PLReport where
  revenue : ℚ
  costs : ℚ
  profit : ℚ
  profitMargin : ℚ
deriving DecidableEq

/-- Cost contributed by one invoice line in GET /profit-loss: quantity times
purchasePrice when the product resolves and its purchasePrice is truthy,
zero otherwise. -/
def itemCost (lookup : ℕ → Option PLProduct) (it : PLItem) : ℚ :=
  match lookup it.productId with
  | some p =>
    match p.purchasePrice with
    | some v => if v = 0 then 0 else it.quantity * v
    | none => 0
  | none => 0

/-- The revenue accumulator of GET /profit-loss. -/
def plRevenue (invs : List PLInvoice) : ℚ :=
  invs.foldl (fun a inv => a + inv.grandTotal.getD 0) 0

/-- The costs accumulator of GET /profit-loss. -/
def plCosts (invs : List PLInvoice) (lookup : ℕ → Option PLProduct) : ℚ :=
  invs.foldl (fun a inv => a + inv.items.foldl (fun b it => b + itemCost lookup it) 0) 0

/-- GET /profit-loss: revenue, costs, profit = revenue - costs, and
profitMargin = profit / revenue * 100 when revenue is positive, else 0;
the margin is rounded to 2 decimals on output. -/
def profitLossReport (invs : List PLInvoice) (lookup : ℕ → Option PLProduct) : PLReport :=
  let revenue := plRevenue invs
  let costs := plCosts invs lookup
  let profit := revenue - costs
  let profitMargin := if 0 < revenue then profit / revenue * 100 else 0
  { revenue := revenue
    costs := costs
    profit := profit
    profitMargin := round2 profitMargin }

/-- One rate bucket of the GSTR-1 byGSTRate map. -/
structure RateBucket where
  taxableValue : ℚ
  cgst : ℚ
  sgst : ℚ
  igst : ℚ
deriving DecidableEq

/-- A line item as read by the GSTR-1 report: gstRate and itemTotal, each read
with the or-zero default of the route. -/
structure GstrItem where
  gstRate : Option ℚ
  itemTotal : Option ℚ
deriving DecidableEq

/-- A persisted invoice as read by the GSTR-1 report. -/
structure GstrInvoice where
  cgst : Option ℚ
  sgst : Option ℚ
  igst : Option ℚ
  items : List GstrItem
deriving DecidableEq

/-- The bucket key of a line item in GSTR-1: Math.round(item.gstRate or 0). -/
def rateKey (it : GstrItem) : ℤ := jsRound (it.gstRate.getD 0)

/-- One accumulation step of the GSTR-1 inner loop: add the item's total to
taxableValue and the whole parent invoice's tax fields to the bucket. -/
def bucketAdd (inv : GstrInvoice) (it : GstrItem) (b : RateBucket) : RateBucket :=
  { taxableValue := b.taxableValue + it.itemTotal.getD 0
    cgst := b.cgst + inv.cgst.getD 0
    sgst := b.sgst + inv.sgst.getD 0
    igst := b.igst + inv.igst.getD 0 }

/-- The GSTR-1 inner loop over one invoice's items, restricted to the bucket
with key r. -/
def gstrInvoiceStep (r : ℤ) (b : RateBucket) (inv : GstrInvoice) : RateBucket :=
  inv.items.foldl (fun b it => if rateKey it = r then bucketAdd inv it b else b) b

/-- The value of the byGSTRate entry with key r after the GSTR-1 double loop
over all invoices and their items. -/
def byGSTRate (invs : List GstrInvoice) (r : ℤ) : RateBucket :=
  invs.foldl (gstrInvoiceStep r) { taxableValue := 0, cgst := 0, sgst := 0, igst := 0 }

/-- The items of one invoice that fall in the bucket with key r. -/
def itemsAtRate (inv : GstrInvoice) (r : ℤ) : List GstrItem :=
  inv.items.filter (fun it => decide (rateKey it = r))

/-- Sum of the line totals of one invoice's items in the bucket with key r. -/
def invoiceTaxableAtRate (inv : GstrInvoice) (r : ℤ) : ℚ :=
  ((itemsAtRate inv r).map (fun it => it.itemTotal.getD 0)).sum

/-- How many of one invoice's items fall in the bucket with key r. -/
def hitCount (inv : GstrInvoice) (r : ℤ) : ℕ := (itemsAtRate inv r).length

/-- An invoice with two line items at the same 18 percent rate, used to test
the redistribution of invoice-level tax into rate buckets. -/
def c4Invoice : GstrInvoice :=
  { cgst := some 9
    sgst := some 9
    igst := some 0
    items := [{ gstRate := some 18, itemTotal := some 100 },
              { gstRate := some 18, itemTotal := some 100 }] }

/-- JS String.prototype.padStart(6, zero): left-pad with the zero character up
to length 6; longer strings are returned unchanged, never truncated. -/
def padStart6 (s : String) : String :=
  if s.length < 6 then String.mk (List.replicate (6 - s.length) '0') ++ s else s

/-- Little-endian base-10 digits of n, with explicit fuel so that the
recursion is structural. -/
def decDigitsRevAux : ℕ → ℕ → List ℕ
  | 0, _ => []
  | fuel + 1, n => if n < 10 then [n] else n % 10 :: decDigitsRevAux fuel (n / 10)

/-- Little-endian base-10 digits of n. -/
def decDigitsRev (n : ℕ) : List ℕ := decDigitsRevAux (n + 1) n

/-- JavaScript String(n) for a non-negative count: base-10 rendering with no
leading zeros. -/
def natToDecString (n : ℕ) : String :=
  String.mk ((decDigitsRev n).reverse.map (fun d => Char.ofNat (48 + d)))

/-- generateInvoiceNumber from src/utils/gstCalculator.js: the count plus one,
rendered in decimal, left-padded with zeros to at least 6 digits, in the
INV-userId-number template. -/
def generateInvoiceNumber (userId : String) (invoiceCount : ℕ) : String :=
  "INV-" ++ userId ++ "-" ++ padStart6 (natToDecString (invoiceCount + 1))

/-- Value of a big-endian digit list. -/
def decValBE (ds : List ℕ) : ℕ := ds.foldl (fun a d => a * 10 + d) 0

/-- The numeric value of a decimal digit character, if it is one. -/
def digitVal (c : Char) : Option ℕ :=
  if 48 ≤ c.toNat ∧ c.toNat ≤ 57 then some (c.toNat - 48) else none

/-- Parse a big-endian decimal digit string; leading zeros are allowed. -/
def parseDecDigits (cs : List Char) : Option ℕ :=
  cs.foldl (fun a c => a.bind (fun n => (digitVal c).map (fun d => n * 10 + d))) (some 0)

/-- The maximal dash-free suffix of a string, as characters. -/
def numericSuffix (s : String) : List Char :=
  (s.data.reverse.takeWhile (fun c => !(c == '-'))).reverse

/-- The sequence number encoded at the end of an invoice number. -/
def extractSeq (s : String) : Option ℕ := parseDecDigits (numericSuffix s)

theorem ratFloor_eq_intFloor (q : ℚ) : q.floor = ⌊q⌋ := by
  rw [Rat.floor_def, ← Rat.floor_def']

theorem round2_eq_floor (x : ℚ) : round2 x = (⌊x * 100 + 1/2⌋ : ℤ) / 100 := by
  rw [round2, ratFloor_eq_intFloor]

theorem jsRound_eq_floor (x : ℚ) : jsRound x = ⌊x + 1/2⌋ := by
  rw [jsRound, ratFloor_eq_intFloor]

theorem round2_zero : round2 0 = 0 := by
  norm_num [round2, Rat.floor_def']

/-- Rounding to 2 decimals moves a value by at most half a cent. -/
theorem abs_round2_sub_le (x : ℚ) : |round2 x - x| ≤ 1/200 := by
  rw [round2_eq_floor]
  have h1 : ((⌊x * 100 + 1/2⌋ : ℤ) : ℚ) ≤ x * 100 + 1/2 := Int.floor_le _
  have h2 : x * 100 + 1/2 < (⌊x * 100 + 1/2⌋ : ℤ) + 1 := Int.lt_floor_add_one _
  rw [abs_le]
  exact ⟨by linarith, by linarith⟩

/-- Independently rounding both halves of a value can differ from rounding the
value itself by at most one cent. -/
theorem twice_round2_half_sub (t : ℚ) : |2 * round2 (t/2) - round2 t| ≤ 1/100 := by
  rw [round2_eq_floor, round2_eq_floor]
  have e : t/2 * 100 + 1/2 = 50*t + 1/2 := by ring
  rw [e]
  have hn1 : ((⌊(50*t : ℚ) + 1/2⌋ : ℤ) : ℚ) ≤ 50*t + 1/2 := Int.floor_le _
  have hn2 : (50*t : ℚ) + 1/2 < (⌊(50*t : ℚ) + 1/2⌋ : ℤ) + 1 := Int.lt_floor_add_one _
  have hm1 : ((⌊t * 100 + 1/2⌋ : ℤ) : ℚ) ≤ t * 100 + 1/2 := Int.floor_le _
  have hm2 : t * 100 + 1/2 < (⌊t * 100 + 1/2⌋ : ℤ) + 1 := Int.lt_floor_add_one _
  have hub : ⌊t * 100 + 1/2⌋ ≤ 2 * ⌊(50*t : ℚ) + 1/2⌋ + 1 := by
    have h : ((⌊t * 100 + 1/2⌋ : ℤ) : ℚ) < ((2 * ⌊(50*t : ℚ) + 1/2⌋ + 2 : ℤ) : ℚ) := by
      push_cast
      linarith
    have h2 : (⌊t * 100 + 1/2⌋ : ℤ) < 2 * ⌊(50*t : ℚ) + 1/2⌋ + 2 := by exact_mod_cast h
    omega
  have hlb : 2 * ⌊(50*t : ℚ) + 1/2⌋ - 1 ≤ ⌊t * 100 + 1/2⌋ := by
    have h : ((2 * ⌊(50*t : ℚ) + 1/2⌋ - 2 : ℤ) : ℚ) < ((⌊t * 100 + 1/2⌋ : ℤ) : ℚ) := by
      push_cast
      linarith
    have h2 : (2 * ⌊(50*t : ℚ) + 1/2⌋ - 2 : ℤ) < ⌊t * 100 + 1/2⌋ := by exact_mod_cast h
    omega
  have hubq : ((⌊t * 100 + 1/2⌋ : ℤ) : ℚ) ≤ 2 * ((⌊(50*t : ℚ) + 1/2⌋ : ℤ) : ℚ) + 1 := by
    exact_mod_cast hub
  have hlbq : 2 * ((⌊(50*t : ℚ) + 1/2⌋ : ℤ) : ℚ) - 1 ≤ ((⌊t * 100 + 1/2⌋ : ℤ) : ℚ) := by
    exact_mod_cast hlb
  rw [abs_le]
  constructor
  · linarith
  · linarith

/-- C1: the stock-valuation report was claimed to report OutOfStock for every
product with stock 0, taking precedence over LowStock.  The code tests
isLowStock first, so a product with stock 0 and minStock 5 is reported
Low Stock, and with the schema bounds stock at least 0 and minStock at least 0
the Out of Stock branch can never be reached. -/
theorem c1_stock_zero_reported_low_stock :
    stockStatus 0 5 = "Low Stock" ∧
    ∀ s m : ℚ, 0 ≤ s → 0 ≤ m → stockStatus s m ≠ "Out of Stock" := by
  constructor
  · have h : isLowStock 0 5 = true := by
      simp [isLowStock]
    simp [stockStatus, h]
  · intro s m hs hm
    by_cases h : s ≤ m
    · have hb : isLowStock s m = true := by
        simp [isLowStock, h]
      simp [stockStatus, hb]
    · have hb : isLowStock s m = false := by
        simp [isLowStock, h]
      have hs0 : ¬ (s = 0) := by
        intro h0
        exact h (h0 ▸ hm)
      simp [stockStatus, hb, hs0]

/-- C1 witness: the concrete failing product, stock 0 and minStock 5, is not
reported Out of Stock. -/
theorem c1_stock_zero_witness :
    (0:ℚ) ≤ 0 ∧ (0:ℚ) ≤ 5 ∧ stockStatus 0 5 ≠ "Out of Stock" :=
  ⟨le_refl 0, by norm_num,
    c1_stock_zero_reported_low_stock.2 0 5 (le_refl 0) (by norm_num)⟩

/-- C5 counterexample: calculateGST performs no input validation; at the
negative line total -100 with rate 18 it returns -18 instead of failing with
InvalidInput as the claim requires (the checked behaviour worded by the
specification would return the error). -/
theorem c5_unvalidated_negative_input :
    calculateGST (-100) 18 = -18 ∧
    computeLineTaxSpec (-100) 18 = Except.error TaxErr.InvalidInput := by
  constructor
  · norm_num [calculateGST]
  · have h : ((-100 : ℚ) < 0 ∨ (18:ℚ) < 0 ∨ (100:ℚ) < 18) := Or.inl (by norm_num)
    unfold computeLineTaxSpec
    rw [if_pos h]

/-- C5 amended: calculateGST computes lineTotal times rate over 100 for every
input with no validation; on inputs inside the documented domain it agrees
with the checked function worded by the specification. -/
theorem c5_checked_agreement (t r : ℚ) (ht : 0 ≤ t) (hr0 : 0 ≤ r) (hr1 : r ≤ 100) :
    computeLineTaxSpec t r = Except.ok (calculateGST t r) := by
  have h : ¬ (t < 0 ∨ r < 0 ∨ 100 < r) := by
    push_neg
    exact ⟨ht, hr0, hr1⟩
  unfold computeLineTaxSpec calculateGST
  rw [if_neg h]

/-- C5 witness: at lineTotal 200 and rate 18 the checked function succeeds and
agrees with calculateGST. -/
theorem c5_checked_agreement_witness :
    (0:ℚ) ≤ 200 ∧ (0:ℚ) ≤ 18 ∧ (18:ℚ) ≤ 100 ∧
    computeLineTaxSpec 200 18 = Except.ok (calculateGST 200 18) :=
  ⟨by norm_num, by norm_num, by norm_num,
    c5_checked_agreement 200 18 (by norm_num) (by norm_num) (by norm_num)⟩

/-- C8: the profit-and-loss report divides only under the positive-revenue
guard: profitMargin equals the rounded profit over revenue percentage when
revenue is positive and is 0 otherwise, in particular whenever revenue is 0
and over the empty invoice collection. -/
theorem c8_profit_margin_guard (invs : List PLInvoice) (lookup : ℕ → Option PLProduct) :
    ((profitLossReport invs lookup).profitMargin
        = if 0 < plRevenue invs
          then round2 ((plRevenue invs - plCosts invs lookup) / plRevenue invs * 100)
          else 0) ∧
    (plRevenue invs = 0 → (profitLossReport invs lookup).profitMargin = 0) ∧
    (profitLossReport [] lookup).profitMargin = 0 ∧
    (profitLossReport [] lookup).revenue = 0 := by
  refine ⟨?_, ?_, ?_, ?_⟩
  · by_cases h : 0 < plRevenue invs
    · simp [profitLossReport, h]
    · simp [profitLossReport, h, round2_zero]
  · intro h0
    have h : ¬ (0 < plRevenue invs) := by
      rw [h0]
      exact lt_irrefl 0
    simp [profitLossReport, h, round2_zero]
  · have h : ¬ (0 < plRevenue ([] : List PLInvoice)) := by
      simp [plRevenue]
    simp [profitLossReport, h, round2_zero]
  · simp [profitLossReport, plRevenue]

/-- C8 witness: over the empty collection revenue is 0 and the margin is 0. -/
theorem c8_profit_margin_guard_witness :
    plRevenue [] = 0 ∧
    (profitLossReport [] (fun _ => none)).profitMargin = 0 :=
  ⟨rfl, (c8_profit_margin_guard [] (fun _ => none)).2.1 rfl⟩

/-- C2 counterexample: with a single same-state line of total tax exactly 0.01
the two independently rounded halves are 0.01 each, so their sum is 0.02 while
the rounded total tax is 0.01: the claimed exact identity fails by one cent. -/
theorem c2_independent_rounding_drift :
    (calculateInvoiceTotals [onePaisaItem] "x" "x").cgst
        + (calculateInvoiceTotals [onePaisaItem] "x" "x").sgst = 2/100 ∧
    round2 (rawTotalGST [onePaisaItem]) = 1/100 ∧
    ¬ ((calculateInvoiceTotals [onePaisaItem] "x" "x").cgst
        + (calculateInvoiceTotals [onePaisaItem] "x" "x").sgst
        = round2 (rawTotalGST [onePaisaItem])) := by
  have hs : isSameState "x" "x" = true := by decide
  have h1 : (calculateInvoiceTotals [onePaisaItem] "x" "x").cgst = 1/100 := by
    simp [calculateInvoiceTotals, rawCGST, rawTotalGST, itemsWithTotals, onePaisaItem,
      calculateGST, calculateCGSTSGST, hs, round2]
    norm_num [Rat.floor_def']
  have h2 : (calculateInvoiceTotals [onePaisaItem] "x" "x").sgst = 1/100 := by
    simp [calculateInvoiceTotals, rawSGST, rawTotalGST, itemsWithTotals, onePaisaItem,
      calculateGST, calculateCGSTSGST, hs, round2]
    norm_num [Rat.floor_def']
  have h3 : round2 (rawTotalGST [onePaisaItem]) = 1/100 := by
    simp [rawTotalGST, itemsWithTotals, onePaisaItem, calculateGST, round2]
    norm_num [Rat.floor_def']
  refine ⟨by rw [h1, h2]; norm_num, h3, by rw [h1, h2, h3]; norm_num⟩

/-- C2 amended: in the same-jurisdiction case each half is the rounded half of
the unrounded total tax, and their sum equals the rounded total tax only to
within one cent, not exactly. -/
theorem c2_half_split_amended (items : List LineItem) (cs bs : String)
    (h : isSameState cs bs = true) :
    (calculateInvoiceTotals items cs bs).cgst = round2 (rawTotalGST items / 2) ∧
    (calculateInvoiceTotals items cs bs).sgst = round2 (rawTotalGST items / 2) ∧
    |(calculateInvoiceTotals items cs bs).cgst + (calculateInvoiceTotals items cs bs).sgst
        - round2 (rawTotalGST items)| ≤ 1/100 := by
  have hc : (calculateInvoiceTotals items cs bs).cgst = round2 (rawTotalGST items / 2) := by
    simp [calculateInvoiceTotals, rawCGST, calculateCGSTSGST, h]
  have hsg : (calculateInvoiceTotals items cs bs).sgst = round2 (rawTotalGST items / 2) := by
    simp [calculateInvoiceTotals, rawSGST, calculateCGSTSGST, h]
  refine ⟨hc, hsg, ?_⟩
  rw [hc, hsg]
  have h2 := twice_round2_half_sub (rawTotalGST items)
  have e : round2 (rawTotalGST items / 2) + round2 (rawTotalGST items / 2)
      = 2 * round2 (rawTotalGST items / 2) := by ring
  rw [e]
  exact h2

/-- C2 witness: the amended bound at the concrete one-paisa invoice. -/
theorem c2_half_split_amended_witness :
    isSameState "x" "x" = true ∧
    |(calculateInvoiceTotals [onePaisaItem] "x" "x").cgst
        + (calculateInvoiceTotals [onePaisaItem] "x" "x").sgst
        - round2 (rawTotalGST [onePaisaItem])| ≤ 1/100 :=
  ⟨by decide, (c2_half_split_amended [onePaisaItem] "x" "x" (by decide)).2.2⟩

/-- C3 counterexample: at the one-paisa invoice the rounded output fields sum
to 1.02 while the rounded grand total is 1.01, so the identity over rounded
fields fails. -/
theorem c3_rounded_fields_identity_fails :
    (calculateInvoiceTotals [onePaisaItem] "x" "x").grandTotal = 101/100 ∧
    ¬ ((calculateInvoiceTotals [onePaisaItem] "x" "x").subtotal
        + (calculateInvoiceTotals [onePaisaItem] "x" "x").cgst
        + (calculateInvoiceTotals [onePaisaItem] "x" "x").sgst
        + (calculateInvoiceTotals [onePaisaItem] "x" "x").igst
        = (calculateInvoiceTotals [onePaisaItem] "x" "x").grandTotal) := by
  have hs : isSameState "x" "x" = true := by decide
  have hsub : (calculateInvoiceTotals [onePaisaItem] "x" "x").subtotal = 1 := by
    simp [calculateInvoiceTotals, rawSubtotal, itemsWithTotals, onePaisaItem, round2]
    norm_num [Rat.floor_def']
  have h1 : (calculateInvoiceTotals [onePaisaItem] "x" "x").cgst = 1/100 := by
    simp [calculateInvoiceTotals, rawCGST, rawTotalGST, itemsWithTotals, onePaisaItem,
      calculateGST, calculateCGSTSGST, hs, round2]
    norm_num [Rat.floor_def']
  have h2 : (calculateInvoiceTotals [onePaisaItem] "x" "x").sgst = 1/100 := by
    simp [calculateInvoiceTotals, rawSGST, rawTotalGST, itemsWithTotals, onePaisaItem,
      calculateGST, calculateCGSTSGST, hs, round2]
    norm_num [Rat.floor_def']
  have hi : (calculateInvoiceTotals [onePaisaItem] "x" "x").igst = 0 := by
    simp [calculateInvoiceTotals, rawIGST, hs, round2_zero]
  have hg : (calculateInvoiceTotals [onePaisaItem] "x" "x").grandTotal = 101/100 := by
    simp [calculateInvoiceTotals, rawGrandTotal, rawSubtotal, rawCGST, rawSGST, rawIGST,
      rawTotalGST, itemsWithTotals, onePaisaItem, calculateGST, calculateCGSTSGST, hs, round2]
    norm_num [Rat.floor_def']
  refine ⟨hg, ?_⟩
  rw [hsub, h1, h2, hi, hg]
  norm_num

/-- C3 amended: the grand total output is the single rounding of the exact
(unrounded) sum subtotal + cgst + sgst + igst, and the four rounded output
fields sum to the rounded grand total only within a tolerance of 1/40. -/
theorem c3_grand_total_amended (items : List LineItem) (cs bs : String) :
    (calculateInvoiceTotals items cs bs).grandTotal
      = round2 (rawSubtotal items + rawCGST items cs bs + rawSGST items cs bs
          + rawIGST items cs bs) ∧
    |(calculateInvoiceTotals items cs bs).subtotal
        + (calculateInvoiceTotals items cs bs).cgst
        + (calculateInvoiceTotals items cs bs).sgst
        + (calculateInvoiceTotals items cs bs).igst
        - (calculateInvoiceTotals items cs bs).grandTotal| ≤ 1/40 := by
  constructor
  · rfl
  · have hG : rawGrandTotal items cs bs
        = rawSubtotal items + rawCGST items cs bs + rawSGST items cs bs
          + rawIGST items cs bs := rfl
    have ha := abs_round2_sub_le (rawSubtotal items)
    have hb := abs_round2_sub_le (rawCGST items cs bs)
    have hc := abs_round2_sub_le (rawSGST items cs bs)
    have hd := abs_round2_sub_le (rawIGST items cs bs)
    have hg := abs_round2_sub_le (rawGrandTotal items cs bs)
    rw [abs_le] at ha hb hc hd hg
    have f1 : (calculateInvoiceTotals items cs bs).subtotal = round2 (rawSubtotal items) := rfl
    have f2 : (calculateInvoiceTotals items cs bs).cgst
        = round2 (rawCGST items cs bs) := rfl
    have f3 : (calculateInvoiceTotals items cs bs).sgst
        = round2 (rawSGST items cs bs) := rfl
    have f4 : (calculateInvoiceTotals items cs bs).igst
        = round2 (rawIGST items cs bs) := rfl
    have f5 : (calculateInvoiceTotals items cs bs).grandTotal
        = round2 (rawGrandTotal items cs bs) := rfl
    rw [f1, f2, f3, f4, f5, abs_le]
    constructor
    · linarith
    · linarith

/-- C6: the domestic split is chosen exactly when both jurisdiction strings
are non-empty and equal after lowercasing; otherwise the whole tax goes to
igst; the Maharashtra capitalization variants select the domestic split and
an empty side selects inter-jurisdiction. -/
theorem c6_same_state_case_insensitive (items : List LineItem) (cs bs : String) :
    ((calculateInvoiceTotals items cs bs).isSameState
        = ((!(cs == "")) && (!(bs == "")) && (jsToLower cs == jsToLower bs))) ∧
    ((calculateInvoiceTotals items cs bs).cgst
        = if isSameState cs bs then round2 (rawTotalGST items / 2) else 0) ∧
    ((calculateInvoiceTotals items cs bs).sgst
        = if isSameState cs bs then round2 (rawTotalGST items / 2) else 0) ∧
    ((calculateInvoiceTotals items cs bs).igst
        = if isSameState cs bs then 0 else round2 (rawTotalGST items)) ∧
    isSameState "Maharashtra" "maharashtra" = true ∧
    isSameState "MAHARASHTRA" "Maharashtra" = true ∧
    isSameState "Maharashtra" "" = false := by
  refine ⟨rfl, ?_, ?_, ?_, by decide, by decide, by decide⟩
  · cases h : isSameState cs bs
    · simp [calculateInvoiceTotals, rawCGST, h, round2_zero]
    · simp [calculateInvoiceTotals, rawCGST, calculateCGSTSGST, h]
  · cases h : isSameState cs bs
    · simp [calculateInvoiceTotals, rawSGST, h, round2_zero]
    · simp [calculateInvoiceTotals, rawSGST, calculateCGSTSGST, h]
  · cases h : isSameState cs bs
    · simp [calculateInvoiceTotals, rawIGST, h]
    · simp [calculateInvoiceTotals, rawIGST, h, round2_zero]

/-- C9: the two domestic tax output fields are always equal: each is the
rounded half of the total tax in the same-jurisdiction case and 0 in the
inter-jurisdiction case. -/
theorem c9_domestic_halves_equal (items : List LineItem) (cs bs : String) :
    (calculateInvoiceTotals items cs bs).cgst = (calculateInvoiceTotals items cs bs).sgst ∧
    ((calculateInvoiceTotals items cs bs).cgst
        = if isSameState cs bs then round2 (rawTotalGST items / 2) else 0) := by
  constructor
  · cases h : isSameState cs bs
    · simp [calculateInvoiceTotals, rawCGST, rawSGST, h]
    · simp [calculateInvoiceTotals, rawCGST, rawSGST, calculateCGSTSGST, h]
  · cases h : isSameState cs bs
    · simp [calculateInvoiceTotals, rawCGST, h, round2_zero]
    · simp [calculateInvoiceTotals, rawCGST, calculateCGSTSGST, h]

/-- The GSTR-1 inner loop adds, for the bucket with key r, the matching line
totals to taxableValue and the parent invoice's tax fields once per matching
item. -/
theorem gstr_items_foldl (inv : GstrInvoice) (r : ℤ) :
    ∀ (l : List GstrItem) (b : RateBucket),
      l.foldl (fun b it => if rateKey it = r then bucketAdd inv it b else b) b
        = { taxableValue := b.taxableValue
              + ((l.filter (fun it => decide (rateKey it = r))).map
                  (fun it => it.itemTotal.getD 0)).sum
            cgst := b.cgst
              + ((l.filter (fun it => decide (rateKey it = r))).length : ℚ)
                * inv.cgst.getD 0
            sgst := b.sgst
              + ((l.filter (fun it => decide (rateKey it = r))).length : ℚ)
                * inv.sgst.getD 0
            igst := b.igst
              + ((l.filter (fun it => decide (rateKey it = r))).length : ℚ)
                * inv.igst.getD 0 } := by
  intro l
  induction l with
  | nil =>
    intro b
    simp
  | cons it l ih =>
    intro b
    by_cases h : rateKey it = r
    · have hd : decide (rateKey it = r) = true := decide_eq_true h
      rw [List.foldl_cons, if_pos h, ih]
      simp [List.filter_cons, hd, bucketAdd, RateBucket.mk.injEq]
      refine ⟨by ring, by ring, by ring, by ring⟩
    · have hd : decide (rateKey it = r) = false := decide_eq_false h
      rw [List.foldl_cons, if_neg h, ih]
      simp [List.filter_cons, hd]

/-- The GSTR-1 double loop, characterized per invoice: each invoice adds the
line totals of its items in the bucket, and its invoice-level tax fields once
per item in the bucket. -/
theorem byGSTRate_foldl (r : ℤ) :
    ∀ (invs : List GstrInvoice) (b : RateBucket),
      invs.foldl (gstrInvoiceStep r) b
        = { taxableValue := b.taxableValue
              + (invs.map (fun inv => invoiceTaxableAtRate inv r)).sum
            cgst := b.cgst
              + (invs.map (fun inv => (hitCount inv r : ℚ) * inv.cgst.getD 0)).sum
            sgst := b.sgst
              + (invs.map (fun inv => (hitCount inv r : ℚ) * inv.sgst.getD 0)).sum
            igst := b.igst
              + (invs.map (fun inv => (hitCount inv r : ℚ) * inv.igst.getD 0)).sum } := by
  intro invs
  induction invs with
  | nil =>
    intro b
    simp
  | cons inv invs ih =>
    intro b
    rw [List.foldl_cons]
    have hstep : gstrInvoiceStep r b inv
        = { taxableValue := b.taxableValue + invoiceTaxableAtRate inv r
            cgst := b.cgst + (hitCount inv r : ℚ) * inv.cgst.getD 0
            sgst := b.sgst + (hitCount inv r : ℚ) * inv.sgst.getD 0
            igst := b.igst + (hitCount inv r : ℚ) * inv.igst.getD 0 } := by
      rw [gstrInvoiceStep, gstr_items_foldl inv r inv.items b]
      simp [invoiceTaxableAtRate, itemsAtRate, hitCount]
    rw [hstep, ih]
    simp [RateBucket.mk.injEq]
    refine ⟨by ring, by ring, by ring, by ring⟩

/-- C4 counterexample: an invoice with invoice-level cgst 9 and two items at
the 18 percent rate contributes 18, not 9, to the cgst of the bucket with key
18: the invoice-level tax is added once per item, not once per invoice-bucket
pair. -/
theorem c4_invoice_tax_added_per_item :
    (byGSTRate [c4Invoice] 18).taxableValue = 200 ∧
    (byGSTRate [c4Invoice] 18).cgst = 18 ∧
    ¬ ((byGSTRate [c4Invoice] 18).cgst = 9) := by
  have hk : rateKey ({ gstRate := some 18, itemTotal := some 100 } : GstrItem) = 18 := by
    simp only [rateKey, jsRound, Option.getD_some]
    norm_num [Rat.floor_def']
  have h1 : (byGSTRate [c4Invoice] 18).taxableValue = 200 := by
    simp [byGSTRate, gstrInvoiceStep, c4Invoice, hk, bucketAdd]
    norm_num
  have h2 : (byGSTRate [c4Invoice] 18).cgst = 18 := by
    simp [byGSTRate, gstrInvoiceStep, c4Invoice, hk, bucketAdd]
    norm_num
  refine ⟨h1, h2, ?_⟩
  rw [h2]
  norm_num

/-- C4 amended: line items are grouped by their tax rate rounded to the
nearest whole percent with ties rounded up; taxableValue accumulates the line
totals at that rate; and each parent invoice's invoice-level tax fields are
added to the bucket once per line item of that invoice in the bucket, so an
invoice with several items at one rate contributes its invoice-level tax that
many times. -/
theorem c4_rate_bucket_amended (invs : List GstrInvoice) (r : ℤ) :
    ((byGSTRate invs r).taxableValue
        = (invs.map (fun inv => invoiceTaxableAtRate inv r)).sum) ∧
    ((byGSTRate invs r).cgst
        = (invs.map (fun inv => (hitCount inv r : ℚ) * inv.cgst.getD 0)).sum) ∧
    ((byGSTRate invs r).sgst
        = (invs.map (fun inv => (hitCount inv r : ℚ) * inv.sgst.getD 0)).sum) ∧
    ((byGSTRate invs r).igst
        = (invs.map (fun inv => (hitCount inv r : ℚ) * inv.igst.getD 0)).sum) := by
  have h : byGSTRate invs r
      = { taxableValue := (0:ℚ) + (invs.map (fun inv => invoiceTaxableAtRate inv r)).sum
          cgst := (0:ℚ) + (invs.map (fun inv => (hitCount inv r : ℚ) * inv.cgst.getD 0)).sum
          sgst := (0:ℚ) + (invs.map (fun inv => (hitCount inv r : ℚ) * inv.sgst.getD 0)).sum
          igst := (0:ℚ)
            + (invs.map (fun inv => (hitCount inv r : ℚ) * inv.igst.getD 0)).sum } :=
    byGSTRate_foldl r invs { taxableValue := 0, cgst := 0, sgst := 0, igst := 0 }
  rw [h]
  simp

/-- C10: the output items sequence is the input sequence in order, each item
kept whole and only augmented with its unrounded itemTotal and itemGST. -/
theorem c10_items_preserved (items : List LineItem) (cs bs : String) :
    (calculateInvoiceTotals items cs bs).items
        = items.map (fun it =>
            { base := it
              itemTotal := it.quantity * it.unitPrice
              itemGST := it.quantity * it.unitPrice * (it.gstRate.getD 0) / 100 }) ∧
    (calculateInvoiceTotals items cs bs).items.length = items.length := by
  constructor
  · rfl
  · simp [calculateInvoiceTotals, itemsWithTotals]

/-- Every digit produced by the fueled digit expansion is below 10. -/
theorem decDigitsRevAux_digit_lt :
    ∀ (fuel n : ℕ), ∀ d ∈ decDigitsRevAux fuel n, d < 10 := by
  intro fuel
  induction fuel with
  | zero =>
    intro n d hd
    simp [decDigitsRevAux] at hd
  | succ fuel ih =>
    intro n d hd
    by_cases h : n < 10
    · simp [decDigitsRevAux, h] at hd
      omega
    · simp [decDigitsRevAux, h] at hd
      rcases hd with hd | hd
      · have := Nat.mod_lt n (show 0 < 10 by norm_num)
        omega
      · exact ih (n / 10) d hd

theorem decValBE_snoc (ds : List ℕ) (d : ℕ) :
    decValBE (ds ++ [d]) = decValBE ds * 10 + d := by
  rw [decValBE, decValBE, List.foldl_append]
  rfl

/-- The big-endian value of the digit expansion of n is n, given enough fuel. -/
theorem decValBE_decDigitsRevAux :
    ∀ (fuel n : ℕ), n < fuel → decValBE ((decDigitsRevAux fuel n).reverse) = n := by
  intro fuel
  induction fuel with
  | zero =>
    intro n hn
    omega
  | succ fuel ih =>
    intro n hn
    by_cases h : n < 10
    · have e : decDigitsRevAux (fuel + 1) n = [n] := by
        simp [decDigitsRevAux, h]
      rw [e]
      simp [decValBE]
    · have hpos : 0 < n := by omega
      have hlt : n / 10 < fuel := by
        have h1 : n / 10 < n := Nat.div_lt_self hpos (by norm_num)
        omega
      have e : decDigitsRevAux (fuel + 1) n = n % 10 :: decDigitsRevAux fuel (n / 10) := by
        simp [decDigitsRevAux, h]
      rw [e, List.reverse_cons, decValBE_snoc, ih (n / 10) hlt]
      omega

theorem digitVal_digitChar (d : ℕ) (h : d < 10) :
    digitVal (Char.ofNat (48 + d)) = some d := by
  interval_cases d <;> decide

theorem digitChar_ne_dash (d : ℕ) (h : d < 10) :
    ((Char.ofNat (48 + d)) == '-') = false := by
  interval_cases d <;> decide

/-- Parsing the rendered digit characters folds the digits back up, for any
starting accumulator. -/
theorem parse_foldl_digits :
    ∀ (ds : List ℕ), (∀ d ∈ ds, d < 10) → ∀ (a : ℕ),
      (ds.map (fun d => Char.ofNat (48 + d))).foldl
          (fun a c => a.bind (fun n => (digitVal c).map (fun d => n * 10 + d))) (some a)
        = some (ds.foldl (fun x d => x * 10 + d) a) := by
  intro ds
  induction ds with
  | nil =>
    intro _ a
    simp
  | cons d ds ih =>
    intro h a
    have hd : d < 10 := h d (List.mem_cons_self d ds)
    have ht : ∀ x ∈ ds, x < 10 := fun x hx => h x (List.mem_cons_of_mem d hx)
    rw [List.map_cons, List.foldl_cons, List.foldl_cons]
    have e : ((some a).bind fun n => (digitVal (Char.ofNat (48 + d))).map
        fun dd => n * 10 + dd) = some (a * 10 + d) := by
      rw [digitVal_digitChar d hd]
      rfl
    rw [e, ih ht (a * 10 + d)]

/-- Parsing the decimal rendering of n yields n. -/
theorem parseDecDigits_natToDecString (n : ℕ) :
    parseDecDigits ((natToDecString n).data) = some n := by
  have hd : ∀ d ∈ (decDigitsRev n).reverse, d < 10 := by
    intro d hdm
    exact decDigitsRevAux_digit_lt (n + 1) n d (List.mem_reverse.mp hdm)
  have h := parse_foldl_digits ((decDigitsRev n).reverse) hd 0
  have hv : decValBE ((decDigitsRev n).reverse) = n :=
    decValBE_decDigitsRevAux (n + 1) n (Nat.lt_succ_self n)
  calc parseDecDigits ((natToDecString n).data)
      = some (decValBE ((decDigitsRev n).reverse)) := h
    _ = some n := by rw [hv]

theorem parseDecDigits_cons_zero (l : List Char) :
    parseDecDigits ('0' :: l) = parseDecDigits l := rfl

/-- Leading zero padding does not change the parsed value. -/
theorem parseDecDigits_replicate_zero :
    ∀ (k : ℕ) (cs : List Char),
      parseDecDigits (List.replicate k '0' ++ cs) = parseDecDigits cs := by
  intro k
  induction k with
  | zero =>
    intro cs
    rfl
  | succ k ih =>
    intro cs
    rw [List.replicate_succ, List.cons_append, parseDecDigits_cons_zero, ih]

theorem takeWhile_append_all {α : Type} (p : α → Bool) :
    ∀ (l s : List α), (∀ a ∈ l, p a = true) →
      (l ++ s).takeWhile p = l ++ s.takeWhile p := by
  intro l
  induction l with
  | nil =>
    intro s _
    rfl
  | cons a l ih =>
    intro s h
    have ha : p a = true := h a (List.mem_cons_self a l)
    rw [List.cons_append, List.takeWhile_cons, if_pos ha, ih s
      (fun x hx => h x (List.mem_cons_of_mem a hx)), List.cons_append]

/-- Every character of the decimal rendering is a digit, hence not a dash. -/
theorem natToDecString_ne_dash (n : ℕ) :
    ∀ c ∈ (natToDecString n).data, (c == '-') = false := by
  intro c hc
  have hc2 : c ∈ ((decDigitsRev n).reverse.map (fun d => Char.ofNat (48 + d))) := hc
  rcases List.mem_map.mp hc2 with ⟨d, hdm, hdc⟩
  have hd : d < 10 := decDigitsRevAux_digit_lt (n + 1) n d (List.mem_reverse.mp hdm)
  rw [← hdc]
  exact digitChar_ne_dash d hd

/-- The padded numeric part contains no dash. -/
theorem padStart6_ne_dash (s : String) (h : ∀ c ∈ s.data, (c == '-') = false) :
    ∀ c ∈ (padStart6 s).data, (c == '-') = false := by
  intro c hc
  rw [padStart6] at hc
  by_cases hl : s.length < 6
  · rw [if_pos hl] at hc
    have hc2 : c ∈ List.replicate (6 - s.length) '0' ++ s.data := hc
    rcases List.mem_append.mp hc2 with hc3 | hc3
    · have : c = '0' := List.eq_of_mem_replicate hc3
      rw [this]
      decide
    · exact h c hc3
  · rw [if_neg hl] at hc
    exact h c hc

/-- The dash-free suffix of a generated invoice number is exactly the padded
numeric part. -/
theorem numericSuffix_generateInvoiceNumber (uid : String) (c : ℕ) :
    numericSuffix (generateInvoiceNumber uid c)
      = (padStart6 (natToDecString (c + 1))).data := by
  have hdata : (generateInvoiceNumber uid c).data
      = ("INV-" ++ uid ++ "-").data ++ (padStart6 (natToDecString (c + 1))).data := rfl
  have h2 : ("INV-" ++ uid ++ "-").data.reverse
      = '-' :: ("INV-" ++ uid).data.reverse := by
    have e : ("INV-" ++ uid ++ "-").data = ("INV-" ++ uid).data ++ ['-'] := rfl
    rw [e, List.reverse_append]
    rfl
  have hall : ∀ a ∈ (padStart6 (natToDecString (c + 1))).data.reverse,
      (fun ch => !(ch == '-')) a = true := by
    intro a ha
    have ha2 := List.mem_reverse.mp ha
    have := padStart6_ne_dash (natToDecString (c + 1)) (natToDecString_ne_dash (c + 1)) a ha2
    simp [this]
  rw [numericSuffix, hdata, List.reverse_append, h2,
    takeWhile_append_all _ _ _ hall, List.takeWhile_cons]
  simp

/-- The sequence number parsed back out of a generated invoice number is the
count plus one, for every business id and count: nothing is truncated. -/
theorem extractSeq_generateInvoiceNumber (uid : String) (c : ℕ) :
    extractSeq (generateInvoiceNumber uid c) = some (c + 1) := by
  rw [extractSeq, numericSuffix_generateInvoiceNumber, padStart6]
  by_cases h : (natToDecString (c + 1)).length < 6
  · rw [if_pos h]
    have e : (String.mk (List.replicate (6 - (natToDecString (c + 1)).length) '0')
        ++ natToDecString (c + 1)).data
        = List.replicate (6 - (natToDecString (c + 1)).length) '0'
          ++ (natToDecString (c + 1)).data := rfl
    rw [e, parseDecDigits_replicate_zero, parseDecDigits_natToDecString]
  · rw [if_neg h, parseDecDigits_natToDecString]

/-- The numeric part of a generated invoice number is at least 6 characters. -/
theorem numericSuffix_length_ge (uid : String) (c : ℕ) :
    6 ≤ (numericSuffix (generateInvoiceNumber uid c)).length := by
  rw [numericSuffix_generateInvoiceNumber, padStart6]
  by_cases h : (natToDecString (c + 1)).length < 6
  · rw [if_pos h]
    have e : (String.mk (List.replicate (6 - (natToDecString (c + 1)).length) '0')
        ++ natToDecString (c + 1)).data
        = List.replicate (6 - (natToDecString (c + 1)).length) '0'
          ++ (natToDecString (c + 1)).data := rfl
    rw [e, List.length_append, List.length_replicate]
    have hlen : (natToDecString (c + 1)).length = (natToDecString (c + 1)).data.length := rfl
    omega
  · rw [if_neg h]
    have hlen : (natToDecString (c + 1)).length = (natToDecString (c + 1)).data.length := rfl
    omega

/-- C7: generated invoice numbers follow the INV-businessId-number template
with the sequence number count plus one, zero-padded to at least 6 digits and
never truncated: the two boundary examples hold, the embedded sequence number
is recoverable exactly and is strictly increasing in the count, and the
numeric part is always at least 6 characters wide. -/
theorem c7_invoice_number_format :
    generateInvoiceNumber "biz1" 0 = "INV-biz1-000001" ∧
    generateInvoiceNumber "biz1" 999999 = "INV-biz1-1000000" ∧
    (∀ uid c, extractSeq (generateInvoiceNumber uid c) = some (c + 1)) ∧
    (∀ uid c1 c2, c1 < c2 →
      (extractSeq (generateInvoiceNumber uid c1)).getD 0
        < (extractSeq (generateInvoiceNumber uid c2)).getD 0) ∧
    (∀ uid c, 6 ≤ (numericSuffix (generateInvoiceNumber uid c)).length) := by
  refine ⟨by decide, by decide, extractSeq_generateInvoiceNumber, ?_,
    numericSuffix_length_ge⟩
  intro uid c1 c2 hlt
  rw [extractSeq_generateInvoiceNumber uid c1, extractSeq_generateInvoiceNumber uid c2]
  simpa using hlt

/-- C7 witness: the strict monotonicity conjunct at counts 0 and 1. -/
theorem c7_invoice_number_format_witness :
    0 < 1 ∧
    (extractSeq (generateInvoiceNumber "biz1" 0)).getD 0
      < (extractSeq (generateInvoiceNumber "biz1" 1)).getD 0 :=
  ⟨by norm_num, c7_invoice_number_format.2.2.2.1 "biz1" 0 1 (by norm_num)⟩

end GSTCalc
